import Mathlib

/-!
Verification development for `scrape_fund.py` (repository `NSFC_scraper`).

The Python source is shallowly embedded.  DOM handles become records of the
texts the scraper reads from them; the Playwright primitives become an
environment of responses, where `Except Unit _` encodes a primitive call that
either returns a value or raises; the `while` loop of `scrape_fund` becomes a
fuel-indexed step function over an explicit loop state.  Line numbers in doc
comments refer to `src/scrape_fund.py`.
-/

namespace NSFCScraper

/-! ### String helpers (Python substring / regex primitives) -/

/-- Python's `str.strip()` (also used for `.strip()` on regex groups): drop
whitespace from both ends. -/
def pyStrip (s : String) : String :=
  String.mk
    (((s.toList.dropWhile Char.isWhitespace).reverse.dropWhile Char.isWhitespace).reverse)

/-- `pat` occurs in `s` starting at position `i`. -/
def subAt (pat s : List Char) (i : Nat) : Bool :=
  pat.isPrefixOf (s.drop i)

/-- Position of the leftmost occurrence of `pat` in `s` (the start position a
leftmost `re` match would use). -/
def findSub (pat s : List Char) : Option Nat :=
  (List.range (s.length + 1)).find? (fun i => subAt pat s i)

/-- Python's `pat in text` substring test. -/
def containsSub (text pat : String) : Bool :=
  (findSub pat.toList text.toList).isSome

/-- `re.sub(r'收藏.*$', '', s)` as applied on line 168: the input has already
been stripped (so it has no trailing newline), and the substitution deletes
everything from the leftmost `收藏` that is followed by no newline up to the
end of the string. -/
def stripFav (s : List Char) : List Char :=
  match (List.range (s.length + 1)).find? (fun i =>
      subAt ['收', '藏'] s i && !((s.drop i).contains '\n')) with
  | some i => s.take i
  | none => s

/-- Title normalization (lines 167-168): strip, drop the favorite-marker tail,
strip again.  The normalized title is both the stored `title` value and the
deduplication fingerprint. -/
def normTitle (s : String) : String :=
  pyStrip (String.mk (stripFav (pyStrip s).toList))

/-- Helper for the field regexes: after an occurrence of `marker` at `i`,
require exactly one full-width or half-width colon (`[：:]`) and return the
remaining text. -/
def afterMarkerColon (marker s : List Char) (i : Nat) : Option (List Char) :=
  if subAt marker s i then
    match s.drop (i + marker.length) with
    | c :: r => if c = '：' || c = ':' then some r else none
    | [] => none
  else none

/-- Lazy capture `(.+?)` followed by `\s*` and one of the alternatives in
`stops`: the shortest non-empty newline-free prefix of `r` that is followed by
a (possibly empty) whitespace run and then a stop marker. -/
def lazyUpTo (r : List Char) (stops : List (List Char)) : Option (List Char) :=
  (List.range (r.length + 1)).findSome? (fun j =>
    if j = 0 then none
    else if (r.take j).contains '\n' then none
    else if (List.range (r.length - j + 1)).any (fun w =>
        ((r.drop j).take w).all Char.isWhitespace &&
        stops.any (fun stop => subAt stop r (j + w)))
    then some (r.take j) else none)

/-- Group 1 of `re.search(r'(?:¥|金额[：:])\s*([\d.]+)\s*万元', text)`
(line 184).  Start positions are scanned left to right; the character classes
`[\d.]`, `\s` and the literal `万元` are pairwise disjoint, so the greedy runs
below realize the regex's backtracking semantics. -/
def amountSearch (text : String) : Option String :=
  let s := text.toList
  ((List.range (s.length + 1)).findSome? (fun i =>
    let rest? : Option (List Char) :=
      if subAt ['¥'] s i then some (s.drop (i + 1))
      else afterMarkerColon ['金', '额'] s i
    match rest? with
    | none => none
    | some r =>
      let r1 := r.dropWhile Char.isWhitespace
      let ds := r1.takeWhile (fun c => c.isDigit || c = '.')
      if ds.isEmpty then none
      else if ['万', '元'].isPrefixOf ((r1.drop ds.length).dropWhile Char.isWhitespace)
      then some ds else none)).map String.mk

/-- Group 1 of `re.search(r'受资机构[：:]\s*(.+?)(?:\s*¥|\s*金额)', text)`
(line 187), for the leftmost match with the leading `\s*` taken greedily. -/
def instSearch (text : String) : Option String :=
  let s := text.toList
  ((List.range (s.length + 1)).findSome? (fun i =>
    match afterMarkerColon ['受', '资', '机', '构'] s i with
    | none => none
    | some r => lazyUpTo (r.dropWhile Char.isWhitespace) [['¥'], ['金', '额']])).map String.mk

/-- Group 1 of `re.search(r'负责人[：:]\s*(.+?)\s*立项年份', text)` (line 192). -/
def piSearch (text : String) : Option String :=
  let s := text.toList
  ((List.range (s.length + 1)).findSome? (fun i =>
    match afterMarkerColon ['负', '责', '人'] s i with
    | none => none
    | some r => lazyUpTo (r.dropWhile Char.isWhitespace) [['立', '项', '年', '份']])).map String.mk

/-- Group 1 of `re.search(r'立项年份[：:]\s*(\d{4})', text)` (line 195). -/
def yearSearch (text : String) : Option String :=
  let s := text.toList
  ((List.range (s.length + 1)).findSome? (fun i =>
    match afterMarkerColon ['立', '项', '年', '份'] s i with
    | none => none
    | some r =>
      let r1 := r.dropWhile Char.isWhitespace
      let ds := r1.take 4
      if ds.length = 4 && ds.all Char.isDigit then some ds else none)).map String.mk

/-- Group 1 of `re.search(r'资助机构[：:]\s*(.+?)\s*申报领域', text)` (line 200). -/
def funderSearch (text : String) : Option String :=
  let s := text.toList
  ((List.range (s.length + 1)).findSome? (fun i =>
    match afterMarkerColon ['资', '助', '机', '构'] s i with
    | none => none
    | some r => lazyUpTo (r.dropWhile Char.isWhitespace) [['申', '报', '领', '域']])).map String.mk

/-- Group 1 of `re.search(r'申报领域[：:]*\s*(.+?)$', text)` (line 203): after
the marker, any number of colons and then whitespace are skipped, and the
capture — anchored by `$`, with `.` not matching newlines — is the remaining
non-empty newline-free tail of the string. -/
def fieldSearch (text : String) : Option String :=
  let s := text.toList
  ((List.range (s.length + 1)).findSome? (fun i =>
    if subAt ['申', '报', '领', '域'] s i then
      let r := ((s.drop (i + 4)).dropWhile (fun c => c = '：' || c = ':')).dropWhile
        Char.isWhitespace
      if r.isEmpty || r.contains '\n' then none else some r
    else none)).map String.mk

/-- Lines 205-206: a matched declared-field value is stripped, and the literal
placeholder `"--"` is stored as the empty string. -/
def normField (g : String) : String :=
  let fieldVal := pyStrip g
  if fieldVal = "--" then "" else fieldVal

/-! ### Records and per-item extraction -/

/-- One extracted listing entry (the Python dict `project`).  Every field is
absent until its regex matches. -/
structure Project where
  title : Option String := none
  institution : Option String := none
  pi : Option String := none
  funder : Option String := none
  amount : Option String := none
  year : Option String := none
  field : Option String := none
  deriving DecidableEq, Repr

/-- Lines 183-189: an info segment containing `受资机构` sets `amount` and
`institution` when their regexes match. -/
def applyShouzi (p : Project) (text : String) : Project :=
  if containsSub text "受资机构" then
    let p1 := match amountSearch text with
      | some a => { p with amount := some (a ++ "万元") }
      | none => p
    match instSearch text with
    | some v => { p1 with institution := some (pyStrip v) }
    | none => p1
  else p

/-- Lines 191-197: an info segment containing `负责人` sets `pi` and `year`
when their regexes match. -/
def applyFuzeren (p : Project) (text : String) : Project :=
  if containsSub text "负责人" then
    let p1 := match piSearch text with
      | some v => { p with pi := some (pyStrip v) }
      | none => p
    match yearSearch text with
    | some y => { p1 with year := some y }
    | none => p1
  else p

/-- Lines 199-206: an info segment containing `资助机构` sets `funder` and
`field` when their regexes match; the `field` value goes through `normField`. -/
def applyZizhu (p : Project) (text : String) : Project :=
  if containsSub text "资助机构" then
    let p1 := match funderSearch text with
      | some v => { p with funder := some (pyStrip v) }
      | none => p
    match fieldSearch text with
    | some g => { p1 with field := some (normField g) }
    | none => p1
  else p

/-- Lines 180-206: the three marker checks are independent, so one info
segment may set several fields; later segments overwrite earlier ones. -/
def applyInfo (p : Project) (text : String) : Project :=
  applyZizhu (applyFuzeren (applyShouzi p text) text) text

/-- A rendered `.list-item`: the text of its `.title` child when present, and
the texts of the `.item` children of its `.item-wrap` (empty list when the
wrap is absent). -/
structure ItemHandle where
  titleText : Option String := none
  infoTexts : List String := []
  deriving DecidableEq, Repr

/-- Lines 177-206: fold the info segments over the project under
construction. -/
def extractFields (item : ItemHandle) (p : Project) : Project :=
  item.infoTexts.foldl applyInfo p

/-- Lines 161-210: process one list item against the pair
`(seen_titles, all_projects)`.  The normalized title is computed first; a
fingerprint already in `seen_titles` makes the item a no-op (`continue`),
otherwise the fingerprint is inserted, the fields are extracted, and the
project is appended only when its title is truthy (present and non-empty). -/
def processItem (st : List String × List Project) (item : ItemHandle) :
    List String × List Project :=
  let seen := st.1
  let acc := st.2
  match item.titleText with
  | some raw =>
    let t := normTitle raw
    if t ∈ seen then (seen, acc)
    else
      let seen1 := seen ++ [t]
      let proj := extractFields item { title := some t }
      if proj.title.getD "" = "" then (seen1, acc) else (seen1, acc ++ [proj])
  | none =>
    -- the fields of the unappendable dict are still extracted in the source,
    -- but the dict is discarded: neither `seen_titles` nor `all_projects`
    -- changes
    (seen, acc)

/-- Lines 161-210: process every currently rendered item in order. -/
def extractAll (items : List ItemHandle) (st : List String × List Project) :
    List String × List Project :=
  items.foldl processItem st

/-! ### The pagination loop -/

/-- Line 112: `max_pages = 1000`, the page ceiling. -/
def maxPages : Nat := 1000

/-- Line 114: `max_retries = 3`, the retry ceiling. -/
def maxRetries : Nat := 3

/-- The completion oracle, line 214:
`total_count > 0 and len(all_projects) >= total_count`. -/
def isDone (totalCount collectedCount : Nat) : Bool :=
  decide (totalCount > 0) && decide (collectedCount ≥ totalCount)

/-- Lines 78-100: `total_count` starts at 0 and is replaced only when the
summary-text regex `项目数\s*([\d,]+)` matches; a parse failure leaves it 0. -/
def totalOfMatch : Option Nat → Nat
  | some n => n
  | none => 0

/-- The mutable state of the `while` loop: `page_num`, `retry_count`,
`seen_titles` and `all_projects`. -/
structure LoopState where
  pageNum : Nat
  retryCount : Nat
  seen : List String
  collected : List Project
  deriving DecidableEq, Repr

/-- Result of one loop iteration: `continue`/fall-through to the next
iteration, `break` out of the loop, or an uncaught exception. -/
inductive StepRes where
  | next : LoopState → StepRes
  | done : LoopState → StepRes
  | raised : StepRes
  deriving DecidableEq, Repr

/-- Lines 264-272: the `except` handler of the advance block — retry while
`retry_count < max_retries`, else break. -/
def advExcept (st : LoopState) : StepRes :=
  if st.retryCount < maxRetries then
    .next { st with retryCount := st.retryCount + 1 }
  else .done st

/-- Responses of the primitives used inside the `try` of lines 236-263:
`scroll_into_view_if_needed`, the pre-click read of the first item's title,
`click`, and the ten post-click polls of the first item's title.  Each poll
response is `.error` when its query or `inner_text` raises, and otherwise the
optional title text (none when no `.list-item .title` is found). -/
structure AdvEnv where
  scrollRes : Except Unit Unit
  oldFirst : Except Unit (Option String)
  clickRes : Except Unit Unit
  polls : Nat → Except Unit (Option String)

/-- Lines 253-262: poll the first item's title up to ten times; break out of
the polling as soon as it is non-empty and differs from the old title, and
otherwise (the `for`-`else`) just wait once more and fall through.  A raise
inside a poll is handled by the enclosing `except` (lines 264-272). -/
def pollGo (old : String) (st : LoopState) :
    List (Except Unit (Option String)) → StepRes
  | [] => .next st
  | p :: rest =>
    match p with
    | .error _ => advExcept st
    | .ok v =>
      let newTitle := v.getD ""
      if newTitle ≠ "" ∧ newTitle ≠ old then .next st
      else pollGo old st rest

/-- Lines 236-272: the advance phase.  Scroll, read the old fingerprint,
click — `page_num` is incremented right after the click, before any
verification — then poll for a content change; any raise goes to
`advExcept`. -/
def advance (a : AdvEnv) (st : LoopState) : StepRes :=
  match a.scrollRes with
  | .error _ => advExcept st
  | .ok _ =>
    match a.oldFirst with
    | .error _ => advExcept st
    | .ok o =>
      let oldTitle := o.getD ""
      match a.clickRes with
      | .error _ => advExcept st
      | .ok _ =>
        let st1 := { st with pageNum := st.pageNum + 1 }
        pollGo oldTitle st1 ((List.range 10).map a.polls)

/-- The next-page button as the scraper reads it: its `disabled` and `class`
attributes, each an attribute read that may raise. -/
structure BtnHandle where
  disabledAttr : Except Unit (Option String)
  classAttr : Except Unit (Option String)

/-- Environment of one loop iteration.  `waitListOk` is the outcome of the
guarded `wait_for_selector('.list-item')` (line 124); `itemsRes` is the
unguarded `query_selector_all('.list-item')` (line 142); `reloadRes` is the
unguarded `page.reload()` of the empty-page retry path (line 150);
`nextBtnRes` is the three-way fallback button lookup (lines 219-224),
collapsed to its overall result. -/
structure IterEnv where
  waitListOk : Bool
  itemsRes : Except Unit (List ItemHandle)
  reloadRes : Except Unit Unit
  nextBtnRes : Except Unit (Option BtnHandle)
  adv : AdvEnv

/-- One iteration of the `while` loop body (lines 116-272).  `tc` is
`total_count`. -/
def loopStep (tc : Nat) (env : IterEnv) (st : LoopState) : StepRes :=
  if !env.waitListOk then
    -- lines 126-134: timeout waiting for the list
    if st.retryCount < maxRetries then
      .next { st with retryCount := st.retryCount + 1 }
    else .done st
  else
    match env.itemsRes with
    | .error _ => .raised
    | .ok items =>
      if items.length = 0 then
        -- lines 145-155 (the source increments `retry_count` before the
        -- reload; when the reload raises, the increment is unobservable
        -- because the exception escapes the whole call)
        if st.retryCount < maxRetries then
          match env.reloadRes with
          | .error _ => .raised
          | .ok _ => .next { st with retryCount := st.retryCount + 1 }
        else .done st
      else
        -- line 158: `retry_count = 0` on any iteration that rendered items
        let st0 : LoopState := { st with retryCount := 0 }
        let res := extractAll items (st0.seen, st0.collected)
        let st1 : LoopState := { st0 with seen := res.1, collected := res.2 }
        if isDone tc st1.collected.length then .done st1
        else
          match env.nextBtnRes with
          | .error _ => .raised
          | .ok none => .done st1
          | .ok (some btn) =>
            match btn.disabledAttr with
            | .error _ => .raised
            | .ok d =>
              match btn.classAttr with
              | .error _ => .raised
              | .ok c =>
                let btnClass := c.getD ""
                if d.isSome ∨ containsSub btnClass "is-disabled" = true ∨
                    containsSub btnClass "disabled" = true then .done st1
                else advance env.adv st1

/-- Observable outcome of `scrape_fund`: the returned `all_projects`, an
uncaught exception, or — `fuel` iterations having passed — a loop that is
still going. -/
inductive Outcome where
  | finished : List Project → Outcome
  | raised : Outcome
  | running : LoopState → Outcome
  deriving DecidableEq, Repr

/-- The `while page_num <= max_pages` loop (line 116), with `fuel` bounding
the number of iterations simulated and `i` the iteration index used to read
the environment. -/
def runLoop (tc : Nat) (env : Nat → IterEnv) : Nat → Nat → LoopState → Outcome
  | 0, _, st => .running st
  | fuel + 1, i, st =>
    if st.pageNum > maxPages then .finished st.collected
    else
      match loopStep tc (env i) st with
      | .raised => .raised
      | .done st1 => .finished st1.collected
      | .next st1 => runLoop tc env fuel (i + 1) st1

/-- Environment of one `scrape_fund` call: the unguarded search navigation
(line 60), the total-count lookup (lines 78-100, collapsed to its parsed
result, `.error` when the unguarded first branch raises), the initial item
query (line 103), and the per-iteration environments. -/
structure ScrapeEnv where
  gotoRes : Except Unit Unit
  totalRes : Except Unit (Option Nat)
  initItems : Except Unit (List ItemHandle)
  iters : Nat → IterEnv

/-- Lines 57-276 of `scrape_fund`: navigate to the search page, parse the
reported total, query the initial items — returning `[]` at once when there
are none (lines 106-109) — and otherwise run the pagination loop from
`page_num = 1`, `retry_count = 0`, empty `seen_titles` and `all_projects`. -/
def scrape_fund (env : ScrapeEnv) (fuel : Nat) : Outcome :=
  match env.gotoRes with
  | .error _ => .raised
  | .ok _ =>
    match env.totalRes with
    | .error _ => .raised
    | .ok m =>
      let tc := totalOfMatch m
      match env.initItems with
      | .error _ => .raised
      | .ok items =>
        if items.length = 0 then .finished []
        else runLoop tc env.iters fuel 0 ⟨1, 0, [], []⟩

/-! ### The CSV writer -/

/-- The row written for one record (lines 301-310): `p.get(key, '')` for each
of the seven columns, so an absent field becomes an empty cell. -/
def rowOf (p : Project) : List String :=
  [p.title.getD "", p.institution.getD "", p.pi.getD "", p.funder.getD "",
   p.amount.getD "", p.year.getD "", p.field.getD ""]

/-- Line 289: the fixed column order. -/
def fieldnames : List String :=
  ["title", "institution", "pi", "funder", "amount", "year", "field"]

/-- Lines 290-298: the localized header cell for each column. -/
def header_names (fn : String) : String :=
  if fn = "title" then "题目"
  else if fn = "institution" then "受资机构"
  else if fn = "pi" then "负责人"
  else if fn = "funder" then "资助机构"
  else if fn = "amount" then "金额"
  else if fn = "year" then "立项年份"
  else if fn = "field" then "申报领域"
  else ""

/-- Lines 279-313: the CSV writer, abstracted to the pair
(file name, written rows); `none` models the early return (no file created)
when the project list is empty. -/
def save_to_csv (projects : List Project) (keyword : String)
    (start_year end_year : Int) : Option (String × List (List String)) :=
  if projects.isEmpty then none
  else
    let output_file :=
      "fund_" ++ keyword ++ "_" ++ toString start_year ++ "-" ++
        toString end_year ++ ".csv"
    some (output_file, (fieldnames.map header_names) :: projects.map rowOf)

/-! ### Generic helpers and invariants -/

/-- The loop state carried by a non-exceptional step result. -/
def stRes : StepRes → Option LoopState
  | .next s => some s
  | .done s => some s
  | .raised => none

/-- A poll response that does not let the loop detect a page change: either
the element read raises (handled by the `except`), or the title read back is
empty or equal to the old fingerprint. -/
def pollStale (p : Except Unit (Option String)) (old : String) : Bool :=
  match p with
  | .error _ => false
  | .ok v => !(decide (v.getD "" ≠ "") && decide (v.getD "" ≠ old))

/-- Invariant tying `seen_titles` to `all_projects`: collected records carry
pairwise-distinct titles, and each one's title is a non-empty fingerprint
recorded in `seen_titles`. -/
def GoodPair (seen : List String) (acc : List Project) : Prop :=
  acc.Pairwise (fun p q => p.title ≠ q.title) ∧
  ∀ p ∈ acc, ∃ t, p.title = some t ∧ t ≠ "" ∧ t ∈ seen

/-- The part of the invariant observable on the returned collection. -/
def GoodList (l : List Project) : Prop :=
  l.Pairwise (fun p q => p.title ≠ q.title) ∧
  ∀ p ∈ l, ∃ t, p.title = some t ∧ t ≠ ""

theorem GoodPair.toGoodList {seen : List String} {acc : List Project}
    (h : GoodPair seen acc) : GoodList acc :=
  ⟨h.1, fun p hp => (h.2 p hp).elim fun t ht => ⟨t, ht.1, ht.2.1⟩⟩

theorem goodPair_nil : GoodPair [] [] :=
  ⟨List.Pairwise.nil, fun _ hp => absurd hp (List.not_mem_nil _)⟩

/-- None of the three info-segment branches touches the title field. -/
theorem applyShouzi_title (p : Project) (text : String) :
    (applyShouzi p text).title = p.title := by
  cases h1 : containsSub text "受资机构" <;>
    cases h2 : amountSearch text <;>
    cases h3 : instSearch text <;>
    simp [applyShouzi, h1, h2, h3]

theorem applyFuzeren_title (p : Project) (text : String) :
    (applyFuzeren p text).title = p.title := by
  cases h1 : containsSub text "负责人" <;>
    cases h2 : piSearch text <;>
    cases h3 : yearSearch text <;>
    simp [applyFuzeren, h1, h2, h3]

theorem applyZizhu_title (p : Project) (text : String) :
    (applyZizhu p text).title = p.title := by
  cases h1 : containsSub text "资助机构" <;>
    cases h2 : funderSearch text <;>
    cases h3 : fieldSearch text <;>
    simp [applyZizhu, h1, h2, h3]

theorem applyInfo_title (p : Project) (text : String) :
    (applyInfo p text).title = p.title := by
  unfold applyInfo
  rw [applyZizhu_title, applyFuzeren_title, applyShouzi_title]

/-- Field extraction never changes the title chosen for the record. -/
theorem extractFields_title (item : ItemHandle) :
    ∀ (ts : List String) (p : Project), (ts.foldl applyInfo p).title = p.title
  | [], _ => rfl
  | t :: ts, p => by
    rw [List.foldl_cons, extractFields_title item ts, applyInfo_title]

/-- Processing one item only ever appends to `seen_titles`. -/
theorem processItem_seen_mono (item : ItemHandle) (seen : List String)
    (acc : List Project) :
    ∀ x ∈ seen, x ∈ (processItem (seen, acc) item).1 := by
  intro x hx
  unfold processItem
  cases item.titleText with
  | none => exact hx
  | some raw =>
    simp only
    split
    · exact hx
    · split <;> exact List.mem_append_left _ hx

/-- Processing one item preserves the dedup invariant. -/
theorem processItem_good {seen : List String} {acc : List Project}
    (item : ItemHandle) (h : GoodPair seen acc) :
    GoodPair (processItem (seen, acc) item).1 (processItem (seen, acc) item).2 := by
  unfold processItem
  cases htt : item.titleText with
  | none => exact h
  | some raw =>
    simp only
    split
    · exact h
    · rename_i hnew
      split
      · exact ⟨h.1, fun p hp =>
          (h.2 p hp).elim fun t ht =>
            ⟨t, ht.1, ht.2.1, List.mem_append_left _ ht.2.2⟩⟩
      · rename_i hne
        have htitle : (extractFields item { title := some (normTitle raw) }).title =
            some (normTitle raw) := extractFields_title item item.infoTexts _
        have htne : normTitle raw ≠ "" := by
          intro he
          apply hne
          rw [htitle, he]
          rfl
        constructor
        · rw [List.pairwise_append]
          refine ⟨h.1, List.pairwise_singleton _ _, ?_⟩
          intro p hp q hq
          rcases List.mem_singleton.mp hq with rfl
          rcases h.2 p hp with ⟨t, ht, _, hts⟩
          rw [ht, htitle]
          intro heq
          exact hnew (Option.some.inj heq ▸ hts)
        · intro p hp
          rcases List.mem_append.mp hp with hp | hp
          · rcases h.2 p hp with ⟨t, ht, htn, hts⟩
            exact ⟨t, ht, htn, List.mem_append_left _ hts⟩
          · rcases List.mem_singleton.mp hp with rfl
            exact ⟨normTitle raw, htitle, htne,
              List.mem_append_right _ (List.mem_singleton.mpr rfl)⟩

/-- Extracting a whole page of items preserves the dedup invariant. -/
theorem extractAll_good :
    ∀ (items : List ItemHandle) (seen : List String) (acc : List Project),
      GoodPair seen acc →
      GoodPair (extractAll items (seen, acc)).1 (extractAll items (seen, acc)).2
  | [], _, _, h => h
  | it :: items, seen, acc, h => by
    have h1 := processItem_good it h
    rcases hp : processItem (seen, acc) it with ⟨seen1, acc1⟩
    rw [hp] at h1
    have : extractAll (it :: items) (seen, acc) = extractAll items (seen1, acc1) := by
      simp [extractAll, hp]
    rw [this]
    exact extractAll_good items seen1 acc1 h1

theorem advExcept_stRes (st : LoopState) :
    ∃ s, stRes (advExcept st) = some s ∧ s.pageNum = st.pageNum ∧
      s.seen = st.seen ∧ s.collected = st.collected := by
  unfold advExcept
  split
  · exact ⟨_, rfl, rfl, rfl, rfl⟩
  · exact ⟨_, rfl, rfl, rfl, rfl⟩

/-- The poll loop never raises and never touches `seen`/`collected` or the
page counter. -/
theorem pollGo_stRes (old : String) (st : LoopState) :
    ∀ ps, ∃ s, stRes (pollGo old st ps) = some s ∧ s.pageNum = st.pageNum ∧
      s.seen = st.seen ∧ s.collected = st.collected
  | [] => ⟨st, rfl, rfl, rfl, rfl⟩
  | p :: rest => by
    unfold pollGo
    cases p with
    | error e => exact advExcept_stRes st
    | ok v =>
      simp only
      split
      · exact ⟨st, rfl, rfl, rfl, rfl⟩
      · exact pollGo_stRes old st rest

/-- The advance phase never raises and never touches `seen`/`collected`. -/
theorem advance_stRes (a : AdvEnv) (st : LoopState) :
    ∃ s, stRes (advance a st) = some s ∧ s.seen = st.seen ∧
      s.collected = st.collected := by
  unfold advance
  cases a.scrollRes with
  | error e =>
    rcases advExcept_stRes st with ⟨s, hs, _, h2, h3⟩
    exact ⟨s, hs, h2, h3⟩
  | ok u =>
    cases a.oldFirst with
    | error e =>
      rcases advExcept_stRes st with ⟨s, hs, _, h2, h3⟩
      exact ⟨s, hs, h2, h3⟩
    | ok o =>
      cases a.clickRes with
      | error e =>
        rcases advExcept_stRes st with ⟨s, hs, _, h2, h3⟩
        exact ⟨s, hs, h2, h3⟩
      | ok u2 =>
        simp only
        rcases pollGo_stRes (o.getD "") { st with pageNum := st.pageNum + 1 }
          ((List.range 10).map a.polls) with ⟨s, hs, _, h2, h3⟩
        exact ⟨s, hs, h2, h3⟩

/-- A successful click always advances the recorded page number, whether or
not the fingerprint ever changes. -/
theorem advance_click_pageNum (a : AdvEnv) (st : LoopState) (o : Option String)
    (hs : a.scrollRes = .ok ()) (ho : a.oldFirst = .ok o) (hc : a.clickRes = .ok ()) :
    ∃ s, stRes (advance a st) = some s ∧ s.pageNum = st.pageNum + 1 := by
  unfold advance
  rw [hs, ho, hc]
  simp only
  rcases pollGo_stRes (o.getD "") { st with pageNum := st.pageNum + 1 }
    ((List.range 10).map a.polls) with ⟨s, h1, h2, _, _⟩
  exact ⟨s, h1, h2⟩

/-- One loop iteration preserves the dedup invariant on any non-exceptional
result. -/
theorem loopStep_good (tc : Nat) (env : IterEnv) (st : LoopState)
    (h : GoodPair st.seen st.collected) :
    ∀ s, stRes (loopStep tc env st) = some s → GoodPair s.seen s.collected := by
  intro s hs
  unfold loopStep at hs
  split at hs
  · -- render wait timed out
    split at hs <;> exact Option.some.inj hs ▸ h
  · cases hitems : env.itemsRes with
    | error e => rw [hitems] at hs; exact absurd hs (by simp [stRes])
    | ok items =>
      rw [hitems] at hs
      simp only at hs
      split at hs
      · -- empty page
        split at hs
        · cases hre : env.reloadRes with
          | error e => rw [hre] at hs; exact absurd hs (by simp [stRes])
          | ok u => rw [hre] at hs; exact Option.some.inj hs ▸ h
        · exact Option.some.inj hs ▸ h
      · -- items rendered: extraction happened
        have hgood := extractAll_good items st.seen st.collected h
        split at hs
        · exact Option.some.inj hs ▸ hgood
        · cases hbtn : env.nextBtnRes with
          | error e => rw [hbtn] at hs; exact absurd hs (by simp [stRes])
          | ok ob =>
            rw [hbtn] at hs
            cases ob with
            | none => exact Option.some.inj hs ▸ hgood
            | some btn =>
              simp only at hs
              cases hd : btn.disabledAttr with
              | error e => rw [hd] at hs; exact absurd hs (by simp [stRes])
              | ok d =>
                rw [hd] at hs
                cases hc : btn.classAttr with
                | error e => rw [hc] at hs; exact absurd hs (by simp [stRes])
                | ok c =>
                  rw [hc] at hs
                  simp only at hs
                  split at hs
                  · exact Option.some.inj hs ▸ hgood
                  · rcases advance_stRes env.adv _ with ⟨s1, h1, h2, h3⟩
                    rw [h1] at hs
                    rcases Option.some.inj hs with rfl
                    rw [h2, h3]
                    exact hgood

/-- The loop maintains the dedup invariant up to whatever state it returns
from. -/
theorem runLoop_good (tc : Nat) (env : Nat → IterEnv) :
    ∀ (fuel i : Nat) (st : LoopState), GoodPair st.seen st.collected →
      ∀ l, runLoop tc env fuel i st = .finished l → GoodList l
  | 0, i, st, h, l, hr => by exact absurd hr (by simp [runLoop])
  | fuel + 1, i, st, h, l, hr => by
    unfold runLoop at hr
    split at hr
    · cases hr
      exact h.toGoodList
    · cases hstep : loopStep tc (env i) st with
      | raised => rw [hstep] at hr; cases hr
      | done st1 =>
        rw [hstep] at hr
        cases hr
        exact (loopStep_good tc (env i) st h st1 (by rw [hstep]; rfl)).toGoodList
      | next st1 =>
        rw [hstep] at hr
        exact runLoop_good tc env fuel (i + 1) st1
          (loopStep_good tc (env i) st h st1 (by rw [hstep]; rfl)) l hr

/-- Every list of records returned by `scrape_fund` satisfies the dedup
invariant. -/
theorem scrape_fund_good (env : ScrapeEnv) (fuel : Nat) (l : List Project)
    (h : scrape_fund env fuel = .finished l) : GoodList l := by
  unfold scrape_fund at h
  cases hg : env.gotoRes with
  | error e => rw [hg] at h; cases h
  | ok u =>
    rw [hg] at h
    cases ht : env.totalRes with
    | error e => rw [ht] at h; cases h
    | ok m =>
      rw [ht] at h
      simp only at h
      cases hi : env.initItems with
      | error e => rw [hi] at h; cases h
      | ok items =>
        rw [hi] at h
        simp only at h
        split at h
        · cases h
          exact ⟨List.Pairwise.nil, fun _ hp => absurd hp (List.not_mem_nil _)⟩
        · exact runLoop_good (totalOfMatch m) env.iters fuel 0 _ goodPair_nil l h

/-- A run of polls that never reports a changed fingerprint makes the poll
loop fall through to the next iteration with the state unchanged. -/
theorem pollGo_stale (old : String) (st : LoopState) :
    ∀ ps, (∀ p ∈ ps, pollStale p old = true) → pollGo old st ps = .next st
  | [], _ => rfl
  | p :: rest, h => by
    have hp := h p (List.mem_cons_self p rest)
    have htail : ∀ q ∈ rest, pollStale q old = true :=
      fun q hq => h q (List.mem_cons_of_mem p hq)
    unfold pollGo
    cases p with
    | error e => exact absurd hp (by simp [pollStale])
    | ok v =>
      simp only
      rw [if_neg]
      · exact pollGo_stale old st rest htail
      · simp only [pollStale, Bool.not_eq_true', Bool.and_eq_false_iff,
          decide_eq_false_iff_not, not_not] at hp
        rcases hp with hp | hp <;> simp [hp]

/-! ### Concrete environments for counterexamples and witnesses -/

/-- An advance environment whose primitives all succeed and whose polls see a
changed title. -/
def okAdv : AdvEnv := ⟨.ok (), .ok (some "甲"), .ok (), fun _ => .ok (some "乙")⟩

def itemA : ItemHandle := ⟨some "甲", []⟩

def itemB : ItemHandle := ⟨some "乙", []⟩

/-- An item whose whole title is the favorite marker, so its normalized title
is empty. -/
def itemFav : ItemHandle := ⟨some "收藏", []⟩

def projA : Project := { title := some "甲" }

def projB : Project := { title := some "乙" }

/-- A next-page button with no `disabled` and no `class` attribute. -/
def enabledBtn : BtnHandle := ⟨.ok none, .ok none⟩

/-- Iterations that render two fresh items behind an enabled button. -/
def iterTwo : IterEnv := ⟨true, .ok [itemA, itemB], .ok (), .ok (some enabledBtn), okAdv⟩

/-- A run whose reported total is 2 and whose first page holds both records:
the completion oracle fires after one iteration. -/
def envTwo : ScrapeEnv := ⟨.ok (), .ok (some 2), .ok [itemA], fun _ => iterTwo⟩

/-- An advance environment whose click raises on every attempt. -/
def advClickFail : AdvEnv := ⟨.ok (), .ok (some "甲"), .error (), fun _ => .ok (some "甲")⟩

/-- Iterations that always render the same item and whose next-page click
always raises. -/
def iterClickFail : IterEnv := ⟨true, .ok [itemA], .ok (), .ok (some enabledBtn), advClickFail⟩

/-- The source that renders items forever while every next-page click fails
(the scenario named by the bounded-termination property). -/
def envClickFail : ScrapeEnv := ⟨.ok (), .ok none, .ok [itemA], fun _ => iterClickFail⟩

/-- The state `envClickFail` loops on: page 1, one collected record, retry
count bumped to 1 by the failed click and reset to 0 again at the top of every
iteration. -/
def stClickFail : LoopState := ⟨1, 1, ["甲"], [projA]⟩

/-- `stClickFail` is a fixed point of the loop body under `envClickFail`. -/
theorem loopStep_clickFail_fix :
    loopStep 0 iterClickFail stClickFail = .next stClickFail := by decide

/-- Under `envClickFail` the loop never leaves `stClickFail`, whatever fuel it
is given. -/
theorem runLoop_clickFail :
    ∀ (fuel i : Nat),
      runLoop 0 envClickFail.iters fuel i stClickFail = .running stClickFail
  | 0, _ => rfl
  | fuel + 1, i => by
    unfold runLoop
    rw [if_neg (by decide : ¬ stClickFail.pageNum > maxPages)]
    have henv : envClickFail.iters i = iterClickFail := rfl
    rw [henv, loopStep_clickFail_fix]
    exact runLoop_clickFail fuel (i + 1)

/-- Under `envClickFail` the whole scrape is still running after any positive
number of iterations. -/
theorem scrape_fund_clickFail :
    ∀ fuel : Nat, scrape_fund envClickFail (fuel + 1) = .running stClickFail := by
  intro fuel
  have h0 : scrape_fund envClickFail (fuel + 1) =
      runLoop 0 envClickFail.iters (fuel + 1) 0 ⟨1, 0, [], []⟩ := rfl
  have hstep : loopStep 0 (envClickFail.iters 0) ⟨1, 0, [], []⟩ = .next stClickFail := by
    decide
  have h1 : runLoop 0 envClickFail.iters (fuel + 1) 0 ⟨1, 0, [], []⟩ =
      runLoop 0 envClickFail.iters fuel 1 stClickFail := by
    conv_lhs => rw [runLoop]
    rw [if_neg (by decide : ¬ (⟨1, 0, [], []⟩ : LoopState).pageNum > maxPages), hstep]
  rw [h0, h1]
  exact runLoop_clickFail fuel 1

/-- A next-page button whose `disabled` attribute read raises. -/
def raisingBtn : BtnHandle := ⟨.error (), .ok none⟩

/-- Iterations whose next-page button attribute read raises. -/
def iterAttrRaise : IterEnv := ⟨true, .ok [itemA], .ok (), .ok (some raisingBtn), okAdv⟩

/-- A run whose first attribute read (line 230) raises. -/
def envAttrRaise : ScrapeEnv := ⟨.ok (), .ok none, .ok [itemA], fun _ => iterAttrRaise⟩

/-- An iteration whose list-render wait times out. -/
def iterWaitFail : IterEnv := ⟨false, .ok [], .ok (), .ok none, okAdv⟩

/-- An advance environment whose click succeeds but whose polls always read
back the old fingerprint. -/
def advStale : AdvEnv := ⟨.ok (), .ok (some "甲"), .ok (), fun _ => .ok (some "甲")⟩

/-- A stale advance whose polls find no `.list-item .title` at all (the read
title defaults to `""`). -/
def advStaleNone : AdvEnv := ⟨.ok (), .ok (some "乙"), .ok (), fun _ => .ok none⟩

/-- A stale advance over fingerprint `乙`. -/
def advStaleB : AdvEnv := ⟨.ok (), .ok (some "乙"), .ok (), fun _ => .ok (some "乙")⟩

/-- Iterations that render one already-seen item and find no next button. -/
def iterDupNoBtn : IterEnv := ⟨true, .ok [itemB], .ok (), .ok none, okAdv⟩

/-- Iterations that render one item whose normalized title is empty, with no
next button. -/
def iterFav : IterEnv := ⟨true, .ok [itemFav], .ok (), .ok none, okAdv⟩

/-- A run that returns zero initial items. -/
def envNoItems : ScrapeEnv := ⟨.ok (), .ok (some 7), .ok [], fun _ => iterTwo⟩

/-! ### Claim theorems -/

/-- C1: for every run of the scrape loop, the returned collection contains no
two Records with equal normalized title, and extracting an item whose
fingerprint is already in the deduplication store leaves both the store and
the collection unchanged. -/
theorem dedup_idempotence :
    (∀ (env : ScrapeEnv) (fuel : Nat) (l : List Project),
      scrape_fund env fuel = .finished l →
      l.Pairwise (fun p q => p.title ≠ q.title)) ∧
    (∀ (item : ItemHandle) (raw : String) (seen : List String) (acc : List Project),
      item.titleText = some raw → normTitle raw ∈ seen →
      processItem (seen, acc) item = (seen, acc)) := by
  constructor
  · intro env fuel l h
    exact (scrape_fund_good env fuel l h).1
  · intro item raw seen acc ht hmem
    simp only [processItem, ht]
    rw [if_pos hmem]

/-- C1 witness: a concrete two-record run is pairwise-distinct in titles, and
re-extracting the already-seen item `甲` is a no-op. -/
theorem dedup_idempotence_witness :
    List.Pairwise (fun p q : Project => p.title ≠ q.title) [projA, projB] ∧
    processItem (["甲"], []) ⟨some "甲", []⟩ = (["甲"], []) := by
  constructor
  · exact dedup_idempotence.1 envTwo 5 [projA, projB] (by decide)
  · exact dedup_idempotence.2 ⟨some "甲", []⟩ "甲" ["甲"] [] rfl (by decide)

/-- C2: the completion oracle reads done exactly when the reported total is
known and positive and the collected count reaches it; an unknown total
(parse failure, left as 0) always reads not-done. -/
theorem completion_oracle_exact :
    ∀ t c : Nat, (isDone t c = true ↔ 0 < t ∧ t ≤ c) ∧ isDone 0 c = false ∧
      totalOfMatch none = 0 := by
  intro t c
  refine ⟨?_, ?_, rfl⟩
  · simp [isDone]
  · simp [isDone]

/-- C3: refutation of the claimed bound.  With a source that renders items
forever and a next-page click that raises on every attempt, the loop is still
running after `maxPages + maxRetries + 1` iterations, and after any number
more: line 158 resets `retry_count` at the top of every item-rendering
iteration, so the click-failure retry ceiling (lines 266-272) is never
reached and `page_num` never advances. -/
theorem loop_unbounded_click_failure :
    ∀ extra : Nat,
      scrape_fund envClickFail (maxPages + maxRetries + 1 + extra) =
        .running stClickFail := by
  intro extra
  have h : maxPages + maxRetries + 1 + extra = (maxPages + maxRetries + extra) + 1 := by
    omega
  rw [h]
  exact scrape_fund_clickFail (maxPages + maxRetries + extra)

/-- C4 counterexample: a raise in the `disabled` attribute read of the next
button (line 230, not guarded by any try/except) propagates out of
`scrape_fund` instead of yielding the records collected so far. -/
theorem attr_error_propagates : scrape_fund envAttrRaise 3 = .raised := by decide

/-- C4 amended: only the failures raised inside the advance try-block
(lines 236-263: scroll, pre-click fingerprint read, click, post-click polls)
and render-wait timeouts are resolved locally; such an iteration never
raises.  Unguarded navigation, query, attribute-read and reload failures do
propagate. -/
theorem error_containment_amended :
    (∀ (a : AdvEnv) (st : LoopState), advance a st ≠ .raised) ∧
    (∀ (tc : Nat) (env : IterEnv) (st : LoopState),
      env.waitListOk = false → loopStep tc env st ≠ .raised) := by
  constructor
  · intro a st h
    rcases advance_stRes a st with ⟨s, hs, _, _⟩
    rw [h] at hs
    cases hs
  · intro tc env st hw h
    unfold loopStep at h
    rw [hw] at h
    simp only [Bool.not_false] at h
    rw [if_pos trivial] at h
    split at h <;> cases h

/-- C4 amended witness: the containment at concrete inputs. -/
theorem error_containment_amended_witness :
    advance advClickFail ⟨1, 0, [], []⟩ ≠ .raised ∧
    iterWaitFail.waitListOk = false ∧
    loopStep 0 iterWaitFail ⟨1, 0, [], []⟩ ≠ .raised := by
  exact ⟨error_containment_amended.1 advClickFail ⟨1, 0, [], []⟩, rfl,
    error_containment_amended.2 0 iterWaitFail ⟨1, 0, [], []⟩ rfl⟩

/-- C5 counterexample: a next-page click whose fingerprint never changes
within the ten-poll budget neither consults any retry logic nor reaches a
terminal state: the iteration ends in `.next` with `retry_count` untouched
and `page_num` already incremented, silently proceeding as if the page had
advanced. -/
theorem stale_click_proceeds :
    advance advStale ⟨1, 0, ["甲"], [projA]⟩ = .next ⟨2, 0, ["甲"], [projA]⟩ := by
  decide

/-- C5 amended: on a stale transition (click succeeded, every poll reads an
empty or unchanged fingerprint) the loop waits out the poll budget and then
proceeds to the next iteration with `page_num` already incremented; no retry
decision and no reload happens and the state is otherwise unchanged. -/
theorem stale_click_amended :
    ∀ (a : AdvEnv) (st : LoopState) (o : Option String),
      a.scrollRes = .ok () → a.oldFirst = .ok o → a.clickRes = .ok () →
      (∀ j < 10, pollStale (a.polls j) (o.getD "") = true) →
      advance a st = .next { st with pageNum := st.pageNum + 1 } := by
  intro a st o hs ho hc hp
  unfold advance
  rw [hs, ho, hc]
  apply pollGo_stale
  intro p hpm
  rcases List.mem_map.mp hpm with ⟨j, hj, rfl⟩
  exact hp j (List.mem_range.mp hj)

/-- C5 amended witness: a stale advance at a concrete state. -/
theorem stale_click_amended_witness :
    advance advStaleNone ⟨3, 2, [], []⟩ = .next ⟨4, 2, [], []⟩ := by
  exact stale_click_amended advStaleNone ⟨3, 2, [], []⟩ (some "乙") rfl rfl rfl
    (by decide)

/-- C6 counterexample: `page_num` is incremented (line 247) by a click whose
fingerprint never changes, and `retry_count` is reset to 0 (line 158) on an
item-rendering iteration that performs no page advance at all (here the next
button is missing and the loop terminates). -/
theorem advance_counters_counterexample :
    advance advStaleB ⟨5, 2, ["乙"], []⟩ = .next ⟨6, 2, ["乙"], []⟩ ∧
    loopStep 0 iterDupNoBtn ⟨1, 2, ["乙"], []⟩ = .done ⟨1, 0, ["乙"], []⟩ := by
  exact ⟨by decide, by decide⟩

/-- C6 amended: `page_num` is incremented on every click attempt that does
not raise, whether or not the fingerprint confirms a page change; and
`retry_count` is reset to 0 at the start of every iteration that renders at
least one list item, regardless of any page advance. -/
theorem advance_counters_amended :
    (∀ (a : AdvEnv) (st : LoopState) (o : Option String),
      a.scrollRes = .ok () → a.oldFirst = .ok o → a.clickRes = .ok () →
      ∃ s, stRes (advance a st) = some s ∧ s.pageNum = st.pageNum + 1) ∧
    (∀ (tc : Nat) (env : IterEnv) (st : LoopState) (items : List ItemHandle),
      env.waitListOk = true → env.itemsRes = .ok items → items.length ≠ 0 →
      loopStep tc env st = loopStep tc env { st with retryCount := 0 }) := by
  constructor
  · exact advance_click_pageNum
  · intro tc env st items hw hi hne
    unfold loopStep
    rw [hw, hi]
    simp only [Bool.not_true, Bool.false_eq_true, if_false]
    rw [if_neg hne, if_neg hne]

/-- C6 amended witness: the two amended behaviors at concrete inputs. -/
theorem advance_counters_amended_witness :
    (∃ s, stRes (advance advStaleB ⟨7, 1, [], []⟩) = some s ∧ s.pageNum = 8) ∧
    loopStep 0 iterDupNoBtn ⟨1, 3, ["乙"], []⟩ =
      loopStep 0 iterDupNoBtn ⟨1, 0, ["乙"], []⟩ := by
  constructor
  · exact advance_counters_amended.1 advStaleB ⟨7, 1, [], []⟩ (some "乙") rfl rfl rfl
  · exact advance_counters_amended.2 0 iterDupNoBtn ⟨1, 3, ["乙"], []⟩ [itemB]
      rfl rfl (by decide)

/-- C7: whenever the declared-field segment matches, the stored `field` value
is the normalization of the captured group: the literal `"--"` becomes the
empty string — never the literal `"--"` — and any other captured value is
stored stripped of surrounding whitespace. -/
theorem field_blank_policy :
    ∀ (p : Project) (text g : String),
      containsSub text "资助机构" = true → fieldSearch text = some g →
      (applyInfo p text).field = some (normField g) ∧ normField g ≠ "--" ∧
      (pyStrip g = "--" → normField g = "") ∧
      (pyStrip g ≠ "--" → normField g = pyStrip g) := by
  intro p text g hc hf
  have hnf : normField g = if pyStrip g = "--" then "" else pyStrip g := rfl
  refine ⟨?_, ?_, ?_, ?_⟩
  · cases hfun : funderSearch text <;>
      simp [applyInfo, applyZizhu, hc, hf, hfun]
  · rw [hnf]
    by_cases h : pyStrip g = "--"
    · rw [if_pos h]; decide
    · rw [if_neg h]; exact h
  · intro h; rw [hnf, if_pos h]
  · intro h; rw [hnf, if_neg h]

/-- C7 witness: the placeholder `"--"` is stored as an empty field on a
concrete info segment. -/
theorem field_blank_policy_witness :
    (applyInfo {} "资助机构：国自然 申报领域：--").field = some "" := by
  have h := field_blank_policy {} "资助机构：国自然 申报领域：--" "--"
    (by decide) (by decide)
  rw [h.1]
  decide

/-- C8: the CSV writer, on a non-empty record sequence, produces the fixed
localized header row followed by one row per record in insertion order with
columns title, institution, pi, funder, amount, year, field (absent fields as
empty cells), in a file named from the keyword and year range. -/
theorem csv_output_layout :
    ∀ (ps : List Project) (k : String) (sy ey : Int), ps ≠ [] →
      save_to_csv ps k sy ey =
        some ("fund_" ++ k ++ "_" ++ toString sy ++ "-" ++ toString ey ++ ".csv",
          ["题目", "受资机构", "负责人", "资助机构", "金额", "立项年份", "申报领域"]
            :: ps.map rowOf) := by
  intro ps k sy ey h
  cases ps with
  | nil => exact absurd rfl h
  | cons p ps => rfl

/-- C8 witness: the writer output on a concrete one-record sequence. -/
theorem csv_output_layout_witness :
    save_to_csv [projA] "电动汽车" 2022 2026 =
      some ("fund_电动汽车_2022-2026.csv",
        [["题目", "受资机构", "负责人", "资助机构", "金额", "立项年份", "申报领域"],
         ["甲", "", "", "", "", "", ""]]) := by
  rw [csv_output_layout [projA] "电动汽车" 2022 2026 (by decide)]
  rfl

/-- C9: every returned Record has a non-empty title; an item whose stripped
title is empty is never appended to the collection, yet its empty fingerprint
is inserted into `seen_titles`, so the fingerprint set can strictly exceed
the set of collected titles (the concrete third conjunct ends a run with one
fingerprint and zero records). -/
theorem nonempty_title_invariant :
    (∀ (env : ScrapeEnv) (fuel : Nat) (l : List Project),
      scrape_fund env fuel = .finished l →
      ∀ p ∈ l, ∃ t, p.title = some t ∧ t ≠ "") ∧
    (∀ (item : ItemHandle) (raw : String) (seen : List String) (acc : List Project),
      item.titleText = some raw → normTitle raw = "" → "" ∉ seen →
      processItem (seen, acc) item = (seen ++ [""], acc)) ∧
    loopStep 0 iterFav ⟨1, 0, [], []⟩ = .done ⟨1, 0, [""], []⟩ := by
  refine ⟨?_, ?_, by decide⟩
  · intro env fuel l h
    exact (scrape_fund_good env fuel l h).2
  · intro item raw seen acc ht he hn
    simp only [processItem, ht, he]
    rw [if_neg hn]
    have htitle : (extractFields item { title := some "" }).title = some "" :=
      extractFields_title item item.infoTexts _
    rw [if_pos (by rw [htitle]; rfl)]

/-- C9 witness: the invariant parts applied at concrete inputs. -/
theorem nonempty_title_invariant_witness :
    (∃ t, projA.title = some t ∧ t ≠ "") ∧
    processItem ([], []) itemFav = ([""], []) := by
  constructor
  · exact nonempty_title_invariant.1 envTwo 5 [projA, projB] (by decide) projA
      (by simp)
  · exact nonempty_title_invariant.2.1 itemFav "收藏" [] [] rfl (by decide)
      (by decide)

/-- C10: a run whose initial render yields zero list items returns the empty
collection at once — for any fuel, including zero, so the pagination loop,
the oracle and the retry logic are never entered — and the CSV writer does
nothing on an empty record sequence. -/
theorem empty_initial_render :
    (∀ (env : ScrapeEnv) (fuel : Nat) (m : Option Nat),
      env.gotoRes = .ok () → env.totalRes = .ok m → env.initItems = .ok [] →
      scrape_fund env fuel = .finished []) ∧
    ∀ (k : String) (sy ey : Int), save_to_csv [] k sy ey = none := by
  constructor
  · intro env fuel m hg ht hi
    unfold scrape_fund
    rw [hg, ht, hi]
    rfl
  · intro k sy ey
    rfl

/-- C10 witness: the empty-render run and the empty write at concrete
inputs. -/
theorem empty_initial_render_witness :
    scrape_fund envNoItems 0 = .finished [] ∧
    save_to_csv [] "kw" 2022 2026 = none := by
  exact ⟨empty_initial_render.1 envNoItems 0 (some 7) rfl rfl rfl,
    empty_initial_render.2 "kw" 2022 2026⟩

end NSFCScraper
